import Mathlib

/-!
Verification development for the incremental prompt-synchronization engine
(`src/autoScheduler.ts` and `src/postgresManager.ts`).

The embedding models:
  * rendered timestamp text (SQLite `datetime(ms/1000,'unixepoch')` output,
    JS `toISOString()`-derived strings) as the inductive `TsText`, one
    constructor per textual shape that actually occurs (space-separated
    second-precision, `T`-separated, with or without a fractional part).
    Distinct constructors correspond to distinct strings; the second and
    millisecond payloads determine the string within a shape, so equality
    of `TsText` values is equality of the underlying strings.
  * JS `new Date(text).getTime()` on an offset-less date-time string, which
    Node interprets in the local timezone: `jsDateText tz` subtracts the
    ambient offset `tz` (milliseconds) from the civil time encoded by the
    text.  `new Date(number)` is the identity on epoch milliseconds.
  * the embedded SQL of `getOptimizedQuery` (autoScheduler.ts lines 282-362)
    as list comprehensions over a modeled `cursorDiskKV` store,
  * the watermark resolution, retry bookkeeping, dedup filter and sink
    write of `executeScheduledTask` (lines 581-754) as a pure state
    transition, with injectable failures for the fallible external calls,
  * `PostgresManager.getLastDatapoint` / `storeSimplePrompts`
    (postgresManager.ts lines 450-491 and 496-606) over a list-of-rows sink.
-/

namespace CursorPromptSync

/-- Rendered timestamp text.  `rendered s` is the SQLite
`datetime(·,'unixepoch')` output `YYYY-MM-DD HH:MM:SS` for second count `s`;
`isoNoFrac s` is the `T`-separated form (`toISOString()` with the `.mmmZ` or
`Z` suffix stripped, or `rendered` after `.replace(' ', 'T')`);
the `Frac` forms carry a fractional-second part `ms`. -/
inductive TsText where
  | rendered (sec : Nat)
  | renderedFrac (sec : Nat) (ms : Nat)
  | isoNoFrac (sec : Nat)
  | isoFrac (sec : Nat) (ms : Nat)
deriving DecidableEq, Repr

/-- SQLite `datetime(t/1000, 'unixepoch')`: renders epoch milliseconds at
second precision (integer division). -/
def renderMs (t : Nat) : TsText := .rendered (t / 1000)

/-- JS `s.replace('T', ' ')` on a timestamp string (autoScheduler.ts:606). -/
def replaceTWithSpace : TsText → TsText
  | .isoNoFrac s => .rendered s
  | .isoFrac s f => .renderedFrac s f
  | t => t

/-- JS `s.replace(' ', 'T')` on a timestamp string (autoScheduler.ts:623/626). -/
def replaceSpaceWithT : TsText → TsText
  | .rendered s => .isoNoFrac s
  | .renderedFrac s f => .isoFrac s f
  | t => t

/-- Civil time content of a timestamp text, in milliseconds. -/
def civilMs : TsText → Nat
  | .rendered s => s * 1000
  | .renderedFrac s f => s * 1000 + f
  | .isoNoFrac s => s * 1000
  | .isoFrac s f => s * 1000 + f

/-- JS `new Date(text).getTime()` for an offset-less date-time string:
Node interprets the civil time in the local timezone, whose offset from
UTC is `tz` milliseconds. -/
def jsDateText (tz : Int) (t : TsText) : Int := (civilMs t : Int) - tz

/-- The value held by `timestampToUse` in `executeScheduledTask`: either raw
epoch milliseconds (a number, whose string form matches `/^\d+$/`) or a
timestamp text. -/
inductive TsVal where
  | mills (ms : Nat)
  | text (t : TsText)
deriving DecidableEq, Repr

/-- JS `new Date(x).getTime()` where `x` is a number or a timestamp string
(the comparison values built in the dedup filter, autoScheduler.ts:681-682). -/
def jsDateVal (tz : Int) : TsVal → Int
  | .mills m => (m : Int)
  | .text t => jsDateText tz t

/-- The `target_ms` computed at the top of `getOptimizedQuery`
(autoScheduler.ts:287-295): `parseInt` when the argument is all digits,
otherwise `new Date(targetTimestamp).getTime()`. -/
def targetMsOf (tz : Int) : TsVal → Int
  | .mills m => (m : Int)
  | .text t => jsDateText tz t

/-- JS `new Date(targetMs).toISOString().replace('.000Z', '').replace('Z', '')`
(autoScheduler.ts:290). -/
def isoClean (m : Nat) : TsText :=
  if m % 1000 = 0 then .isoNoFrac (m / 1000) else .isoFrac (m / 1000) (m % 1000)

/-- The `target_timestamp` of `getOptimizedQuery`: the ISO-cleaned rendering in
the milliseconds case, the original string otherwise. -/
def targetStrOf : TsVal → TsText
  | .mills m => isoClean m
  | .text t => t

/-! ### The source store (`cursorDiskKV`) -/

/-- One `bubbleId:<composerId>:<bubbleId>` record of the source store.
`type` is the sender kind (1 = user, 2 = assistant); `sendTime` models
`$.timingInfo.clientRpcSendTime` (`none` when `timingInfo` or the field is
absent); `text` models `$.text` (`none` when absent). -/
structure Bubble where
  composerId : String
  bubbleId : String
  type : Nat
  sendTime : Option Nat
  text : Option String
deriving DecidableEq, Repr

/-- One element of a composer's `fullConversationHeadersOnly` array. -/
structure Header where
  bubbleId : String
  type : Nat
deriving DecidableEq, Repr

/-- One `composerData:<id>` record: `headers` models
`$.fullConversationHeadersOnly` (`none` when the field is absent). -/
structure Composer where
  composerId : String
  headers : Option (List Header)
deriving DecidableEq, Repr

/-- The embedded source store. -/
structure Source where
  bubbles : List Bubble
  composers : List Composer
deriving DecidableEq, Repr

/-! ### The embedded SQL of `getOptimizedQuery` (autoScheduler.ts:298-361) -/

/-- A row of the `timestamp_filtered_bubbles` CTE. -/
structure TfbRow where
  bubbleId : String
  type : Nat
  sendTime : Nat
  readableTime : TsText
deriving DecidableEq, Repr

/-- CTE `timestamp_filtered_bubbles`: bubbles of `type = 2` with a non-null
send time strictly greater than `target_ms` whose rendered time differs
from `target_timestamp`. -/
def timestampFilteredBubbles (src : Source) (tz : Int) (tv : TsVal) : List TfbRow :=
  let targetMs := targetMsOf tz tv
  let targetTs := targetStrOf tv
  src.bubbles.filterMap fun b =>
    b.sendTime.bind fun t =>
      if b.type = 2 ∧ targetMs < (t : Int) ∧ renderMs t ≠ targetTs then
        some ⟨b.bubbleId, b.type, t, renderMs t⟩
      else none

/-- A row of the `bubble_sequence` CTE. -/
structure SeqRow where
  composerId : String
  bubbleId : String
  type : Nat
  seqIdx : Nat
deriving DecidableEq, Repr

/-- CTE `bubble_sequence`: every composer's header list flattened with its
`json_each` index as `sequence_index`. -/
def bubbleSequence (src : Source) : List SeqRow :=
  src.composers.flatMap fun c =>
    match c.headers with
    | none => []
    | some hs => hs.enum.map fun p => ⟨c.composerId, p.2.bubbleId, p.2.type, p.1⟩

/-- A row of the `target_info` CTE. -/
structure TargetInfo where
  composerId : String
  targetIdx : Nat
  targetBubbleId : String
deriving DecidableEq, Repr

/-- CTE `target_info`: `bubble_sequence` joined with
`timestamp_filtered_bubbles` on `bubble_id`. -/
def targetInfo (src : Source) (tz : Int) (tv : TsVal) : List TargetInfo :=
  (bubbleSequence src).flatMap fun bs =>
    (timestampFilteredBubbles src tz tv).filterMap fun tfb =>
      if bs.bubbleId = tfb.bubbleId then some ⟨bs.composerId, bs.seqIdx, bs.bubbleId⟩
      else none

/-- The correlated scalar subquery producing `prompt`: the `$.text` of the
record keyed `bubbleId:<composerId>:<prevBubbleId>`. -/
def promptLookup (src : Source) (cid : String) (prevId : String) : Option String :=
  match src.bubbles.find? (fun b => b.composerId == cid && b.bubbleId == prevId) with
  | none => none
  | some b => b.text

/-- One row of the final SELECT, with the `client_rpc_send_time` kept for
the ORDER BY. -/
structure ERow where
  timestamp : TsText
  prompt : Option String
  sendMs : Nat
deriving DecidableEq, Repr

/-- The final SELECT before ordering: `timestamp_filtered_bubbles` joined
with `bubble_sequence` on `bubble_id`, with `target_info` on
`(composer_id, sequence_index)`, and LEFT JOINed with the predecessor
sequence row at `sequence_index - 1`. -/
def finalRows (src : Source) (tz : Int) (tv : TsVal) : List ERow :=
  (timestampFilteredBubbles src tz tv).flatMap fun tfb =>
    (bubbleSequence src).flatMap fun tbs =>
      if tbs.bubbleId = tfb.bubbleId then
        (targetInfo src tz tv).flatMap fun ti =>
          if tbs.composerId = ti.composerId ∧ tbs.seqIdx = ti.targetIdx then
            let prevs := (bubbleSequence src).filter fun p =>
              p.composerId == tbs.composerId && p.seqIdx + 1 == tbs.seqIdx
            if prevs.isEmpty then [⟨tfb.readableTime, none, tfb.sendTime⟩]
            else prevs.map fun p =>
              ⟨tfb.readableTime, promptLookup src tbs.composerId p.bubbleId, tfb.sendTime⟩
          else []
      else []

/-- Insert a row into a send-time-descending list, after any row with an
equal or larger send time. -/
def insertByDesc (r : ERow) : List ERow → List ERow
  | [] => [r]
  | x :: xs => if x.sendMs < r.sendMs then r :: x :: xs else x :: insertByDesc r xs

/-- The `ORDER BY tfb.client_rpc_send_time DESC` as a stable insertion sort. -/
def orderBySendDesc : List ERow → List ERow
  | [] => []
  | x :: xs => insertByDesc x (orderBySendDesc xs)

/-- An output row of the query as seen by the scheduler: the `timestamp`
and `prompt` columns. -/
structure QRow where
  timestamp : TsText
  prompt : Option String
deriving DecidableEq, Repr

/-- Function `getOptimizedQuery` executed against the source store: the embedded SQL
of autoScheduler.ts:282-362. -/
def getOptimizedQuery (src : Source) (tz : Int) (tv : TsVal) : List QRow :=
  (orderBySendDesc (finalRows src tz tv)).map fun r => ⟨r.timestamp, r.prompt⟩

/-! ### Watermark resolution against the source (autoScheduler.ts:599-628) -/

/-- Holds when `t` is the raw send time of a response-type source record whose rendered
display time equals `cleaned`: the WHERE clause of `findActualMsQuery`
(autoScheduler.ts:607-615). -/
def IsDisplayMatch (src : Source) (cleaned : TsText) (t : Nat) : Prop :=
  ∃ b ∈ src.bubbles, b.type = 2 ∧ b.sendTime = some t ∧ renderMs t = cleaned

instance (src : Source) (cleaned : TsText) (t : Nat) :
    Decidable (IsDisplayMatch src cleaned t) := by
  unfold IsDisplayMatch; infer_instance

/-- The list of send times satisfying the `findActualMsQuery` WHERE clause. -/
def matchingSendTimes (src : Source) (cleaned : TsText) : List Nat :=
  src.bubbles.filterMap fun b =>
    b.sendTime.bind fun t => if b.type = 2 ∧ renderMs t = cleaned then some t else none

/-- Maximum of a list of naturals, `none` on the empty list. -/
def listMaxNat : List Nat → Option Nat
  | [] => none
  | t :: ts =>
    match listMaxNat ts with
    | none => some t
    | some m => some (max t m)

/-- The `findActualMsQuery` (autoScheduler.ts:607-617): the matching record with
the greatest raw send time (`ORDER BY ... DESC LIMIT 1`). -/
def findActualMs (src : Source) (cleaned : TsText) : Option Nat :=
  listMaxNat (matchingSendTimes src cleaned)

/-- Lines 604-628: clean the stored sink timestamp (`replace('T', ' ')`),
look up the exact raw milliseconds in the source, and on a miss fall back
to the stored text with the space restored to `T`. -/
def resolveTimestampFromDatapoint (src : Source) (tsStored : TsText) : TsVal :=
  match findActualMs src (replaceTWithSpace tsStored) with
  | some m => .mills m
  | none => .text (replaceSpaceWithT tsStored)

/-! ### The sink (`postgresManager.ts`) -/

/-- A persisted sink row.  `createdAt` models the `created_at` write-time
column as a strictly increasing insertion sequence number. -/
structure SinkRow where
  createdAt : Nat
  timestamp : TsText
  prompt : String
  userId : String
deriving DecidableEq, Repr

/-- The `WHERE user_id = $1` filter of `getLastDatapoint` (unfiltered when
no user id is configured, postgresManager.ts:463-470). -/
def userRows (sink : List SinkRow) (userId : Option String) : List SinkRow :=
  match userId with
  | none => sink
  | some u => sink.filter fun r => r.userId == u

/-- The `ORDER BY created_at DESC LIMIT 1` step: the row with the greatest
`created_at`. -/
def maxByCreatedAt : List SinkRow → Option SinkRow
  | [] => none
  | r :: rs =>
    match maxByCreatedAt rs with
    | none => some r
    | some b => if r.createdAt < b.createdAt then some b else some r

/-- Method `PostgresManager.getLastDatapoint` (postgresManager.ts:450-491). -/
def getLastDatapoint (sink : List SinkRow) (userId : Option String) : Option SinkRow :=
  maxByCreatedAt (userRows sink userId)

/-- A record accepted for insertion by `storeSimplePrompts`. -/
structure InsRec where
  timestamp : TsText
  prompt : String
deriving DecidableEq, Repr

/-- The field-extraction loop of `storeSimplePrompts`
(postgresManager.ts:532-564).  The query rows carry exactly the fields
`timestamp` (always a non-empty string, hence truthy) and `prompt`; a row
whose `prompt` is SQL NULL or the empty string is falsy in JS and is
skipped, not inserted. -/
def extractRecords (rows : List QRow) : List InsRec :=
  rows.filterMap fun r =>
    r.prompt.bind fun p => if p = "" then none else some ⟨r.timestamp, p⟩

/-- Result of `storeSimplePrompts`: the sink after the insert loop, the next
`created_at` sequence number, the number of rows inserted, and whether an
insert statement threw (`errored = true` models `client.query` rejecting). -/
structure StoreResult where
  sink : List SinkRow
  seq : Nat
  inserted : Nat
  errored : Bool
deriving Repr

/-- The per-record insert loop of `storeSimplePrompts`
(postgresManager.ts:576-601): one independent INSERT statement per record,
no wrapping transaction.  `fails i` injects a failure of the `i`-th INSERT;
a failure throws out of the loop, leaving the rows already inserted in
place and the remaining records uninserted. -/
def insertLoop (userId : String) (fails : Nat → Bool) :
    List InsRec → List SinkRow → Nat → Nat → Nat → StoreResult
  | [], sink, seq, cnt, _ => ⟨sink, seq, cnt, false⟩
  | r :: rs, sink, seq, cnt, i =>
    if fails i then ⟨sink, seq, cnt, true⟩
    else insertLoop userId fails rs (sink ++ [⟨seq, r.timestamp, r.prompt, userId⟩])
      (seq + 1) (cnt + 1) (i + 1)

/-- Method `PostgresManager.storeSimplePrompts` (postgresManager.ts:496-606) on the
scheduler's `resultsData.results` payload.  The `user_id` column receives
the configured user id or `'local_user'` (line 573). -/
def storeSimplePrompts (sink : List SinkRow) (seq : Nat) (userId : Option String)
    (fails : Nat → Bool) (rows : List QRow) : StoreResult :=
  insertLoop (userId.getD "local_user") fails (extractRecords rows) sink seq 0 0

/-! ### The scheduled tick (autoScheduler.ts:581-754) -/

/-- Constant `this.maxRetries` (autoScheduler.ts:22). -/
def maxRetries : Nat := 3

/-- External environment of one tick.  `tz` is the local timezone offset
used by JS date parsing; `now` is the wall clock in epoch milliseconds;
`pgInit` is `postgresManager.isInitialized()`; `fetchFails` injects
`getLastDatapoint` throwing; `queryFails` injects the main
`databaseManager.executeQuery` call throwing; `insertFails` injects
per-record INSERT failures inside `storeSimplePrompts`; `userId` is the
configured `cursorSqlRunner.userId` (none when unset/empty). -/
structure TickInput where
  src : Source
  tz : Int
  now : Nat
  pgInit : Bool
  fetchFails : Bool
  queryFails : Bool
  insertFails : Nat → Bool
  userId : Option String

/-- Scheduler-owned state threaded through ticks.  `seq` is the next
`created_at` sequence number of the sink; `timerArmed` models
`intervalId !== null`. -/
structure SchedState where
  sink : List SinkRow
  seq : Nat
  retryCount : Nat
  executionCount : Nat
  errorCount : Nat
  lastExecution : Option Nat
  isRunning : Bool
  timerArmed : Bool
deriving DecidableEq, Repr

/-- Observable trace of one tick: whether the watermark-failure path
returned early (line 658), the `target_ms` of the query when one was built,
how many read queries were issued against the source store, whether an
error reached the tick-boundary catch (lines 749-754), and whether the
inner storage catch (lines 732-734) fired. -/
structure TickTrace where
  aborted : Bool
  resolvedMs : Option Int
  sourceQueries : Nat
  caughtAtBoundary : Bool
  storeErrored : Bool
deriving DecidableEq, Repr

/-- The dedup filter applied to the query results
(autoScheduler.ts:675-687): keep exactly the rows whose
`new Date(...).getTime()` differs from that of `timestampToUse`. -/
def dedupFilter (tz : Int) (tv : TsVal) (results : List QRow) : List QRow :=
  results.filter fun r => decide (jsDateText tz r.timestamp ≠ jsDateVal tz tv)

/-- Lines 666-754 of `executeScheduledTask`, entered with the resolved
`timestampToUse` and the number of source queries issued so far: build and
run the optimized query, dedup-filter, store to the sink, update counters.
A `queryFails` throw propagates to the tick boundary (lines 749-754), which
logs and increments `errorCount` only; a store failure is caught by the
inner catch (lines 732-734) and the tick still completes. -/
def proceedPhase (inp : TickInput) (st : SchedState) (tv : TsVal) (sq : Nat) :
    SchedState × TickTrace :=
  let rMs := targetMsOf inp.tz tv
  if inp.queryFails then
    ({ st with errorCount := st.errorCount + 1 },
     ⟨false, some rMs, sq + 1, true, false⟩)
  else
    let results := getOptimizedQuery inp.src inp.tz tv
    if results.isEmpty then
      ({ st with lastExecution := some inp.now, executionCount := st.executionCount + 1 },
       ⟨false, some rMs, sq + 1, false, false⟩)
    else
      let filtered := dedupFilter inp.tz tv results
      if filtered.isEmpty then
        ({ st with lastExecution := some inp.now, executionCount := st.executionCount + 1 },
         ⟨false, some rMs, sq + 1, false, false⟩)
      else if inp.pgInit then
        let res := storeSimplePrompts st.sink st.seq inp.userId inp.insertFails filtered
        ({ st with sink := res.sink, seq := res.seq,
                   lastExecution := some inp.now,
                   executionCount := st.executionCount + 1 },
         ⟨false, some rMs, sq + 1, false, res.errored⟩)
      else
        ({ st with lastExecution := some inp.now, executionCount := st.executionCount + 1 },
         ⟨false, some rMs, sq + 1, false, false⟩)

/-- Method `executeScheduledTask` (autoScheduler.ts:581-754) as a state transition.
The watermark phase (lines 586-663): with PostgreSQL initialized, a fetch
failure increments `supabaseRetryCount` (line 645), resets it to 0 when it
reached `maxRetries` (line 654), and returns early whenever the resulting
counter is below `maxRetries` (lines 657-659); a successful fetch resets
the counter to 0 (lines 631/636) and resolves `timestampToUse` from the
stored sink timestamp, the fallback being `nowIsoString` (line 587-588). -/
def executeScheduledTask (inp : TickInput) (st : SchedState) : SchedState × TickTrace :=
  let nowIso : TsText := .isoNoFrac (inp.now / 1000)
  if inp.pgInit then
    if inp.fetchFails then
      let c1 := st.retryCount + 1
      let c2 := if c1 < maxRetries then c1 else 0
      if c2 < maxRetries then
        ({ st with retryCount := c2 }, ⟨true, none, 0, false, false⟩)
      else
        proceedPhase inp { st with retryCount := c2 } (.text nowIso) 0
    else
      match getLastDatapoint st.sink inp.userId with
      | some dp =>
        proceedPhase inp { st with retryCount := 0 }
          (resolveTimestampFromDatapoint inp.src dp.timestamp) 1
      | none =>
        proceedPhase inp { st with retryCount := 0 } (.text nowIso) 0
  else
    proceedPhase inp st (.text nowIso) 0

/-! ### Concrete scenario: one session `[U1, A1, U2, A2]` -/

/-- A source store with a single session `c` holding the ordered messages
`u1` (user, 500 ms), `a1` (assistant, 2000 ms), `u2` (user, 3000 ms),
`a2` (assistant, 4000 ms). -/
def exSrc : Source :=
  ⟨[⟨"c", "u1", 1, some 500, some "q1"⟩,
    ⟨"c", "a1", 2, some 2000, some "r1"⟩,
    ⟨"c", "u2", 1, some 3000, some "q2"⟩,
    ⟨"c", "a2", 2, some 4000, some "r2"⟩],
   [⟨"c", some [⟨"u1", 1⟩, ⟨"a1", 2⟩, ⟨"u2", 1⟩, ⟨"a2", 2⟩]⟩]⟩

/-- No injected insert failures. -/
def noFail : Nat → Bool := fun _ => false

/-- A healthy tick input on `exSrc`: UTC machine, wall clock 0, PostgreSQL
initialized, no injected failures, user `u` configured. -/
def exInput : TickInput := ⟨exSrc, 0, 0, true, false, false, noFail, some "u"⟩

/-- Initial scheduler state: empty sink, all counters zero, running. -/
def st0 : SchedState := ⟨[], 0, 0, 0, 0, none, true, true⟩

/-- First tick on the empty sink. -/
def run1 : SchedState × TickTrace := executeScheduledTask exInput st0

/-- Second tick input: same environment, later wall clock. -/
def exInput2 : TickInput := { exInput with now := 10000000 }

/-- Second tick, immediately after the first. -/
def run2 : SchedState × TickTrace := executeScheduledTask exInput2 run1.1

/-- C1.  The claim fails on the code: tick 1 writes the rows with rendered
timestamps for 4000 ms and 2000 ms (in send-time-descending insert order),
but tick 2 resolves its lower bound from the row with the greatest
`created_at` — the last-inserted, hence minimum-timestamp row — yielding
2000 ms, strictly below the maximum 4000 ms written at tick 1; the 4000 ms
record is then re-extracted and re-inserted as a duplicate sink row. -/
theorem C1_watermark_regression :
    run1.1.sink.map (fun r => jsDateText 0 r.timestamp) = [4000, 2000] ∧
    run2.2.resolvedMs = some 2000 ∧ (2000 : Int) < 4000 ∧
    (run2.1.sink.filter fun r =>
      r.timestamp == TsText.rendered 4 && r.userId == "u").length = 2 := by
  decide

/-- C4.  The claim fails on the code: entering the tick with
`supabaseRetryCount = 2`, the third consecutive watermark-fetch failure
increments the counter to `maxRetries`, resets it to 0 (line 654) — and then
the `if (supabaseRetryCount < maxRetries) return;` re-check (line 657) sees
the freshly reset counter and aborts the tick anyway: the state is returned
with the counter reset but with `aborted = true`, zero source queries and an
unchanged sink, contradicting the logged `Proceeding with fallback`. -/
theorem C4_maxed_retry_still_aborts :
    executeScheduledTask ⟨exSrc, 0, 0, true, true, false, noFail, some "u"⟩
        ⟨[], 0, 2, 0, 0, none, true, true⟩
      = (⟨[], 0, 0, 0, 0, none, true, true⟩, ⟨true, none, 0, false, false⟩) := by
  decide

/-! ### Sink-side lemmas -/

theorem maxByCreatedAt_spec :
    ∀ (l : List SinkRow) (dp : SinkRow), maxByCreatedAt l = some dp →
      dp ∈ l ∧ ∀ r ∈ l, r.createdAt ≤ dp.createdAt := by
  intro l
  induction l with
  | nil => intro dp h; simp [maxByCreatedAt] at h
  | cons r rs ih =>
    intro dp h
    cases hrec : maxByCreatedAt rs with
    | none =>
      have hnil : rs = [] := by
        cases rs with
        | nil => rfl
        | cons r' rs' =>
          exfalso
          simp only [maxByCreatedAt] at hrec
          rcases hmm : maxByCreatedAt rs' with _ | b <;> simp only [hmm] at hrec
          · exact Option.noConfusion hrec
          · split at hrec <;> exact Option.noConfusion hrec
      subst hnil
      simp only [maxByCreatedAt] at h
      cases h
      exact ⟨List.mem_cons_self _ _, by intro x hx; simp at hx; subst hx; exact Nat.le_refl _⟩
    | some b =>
      simp only [maxByCreatedAt, hrec] at h
      obtain ⟨hbmem, hble⟩ := ih b hrec
      by_cases hlt : r.createdAt < b.createdAt
      · rw [if_pos hlt] at h
        cases h
        refine ⟨List.mem_cons_of_mem _ hbmem, ?_⟩
        intro x hx
        rcases List.mem_cons.mp hx with hx | hx
        · subst hx; exact Nat.le_of_lt hlt
        · exact hble x hx
      · rw [if_neg hlt] at h
        cases h
        refine ⟨List.mem_cons_self _ _, ?_⟩
        intro x hx
        rcases List.mem_cons.mp hx with hx | hx
        · subst hx; exact Nat.le_refl _
        · exact Nat.le_trans (hble x hx) (Nat.le_of_not_lt hlt)

/-- A sink whose latest-written row does not carry the maximum `timestamp`. -/
def c9sink : List SinkRow :=
  [⟨0, .rendered 10, "p1", "u"⟩, ⟨1, .rendered 5, "p2", "u"⟩]

/-- C9.  The claim fails on the code: `getLastDatapoint` orders by
`created_at DESC`, not `timestamp DESC`.  On a sink where the most recently
written row (`created_at = 1`) has rendered timestamp 5 s while an earlier
row has rendered timestamp 10 s, the checkpoint row returned is the 5 s row,
not the row with the maximum value in the `timestamp` column. -/
theorem C9_counterexample :
    getLastDatapoint c9sink (some "u") = some ⟨1, .rendered 5, "p2", "u"⟩ ∧
    (⟨0, TsText.rendered 10, "p1", "u"⟩ : SinkRow) ∈ c9sink ∧
    jsDateText 0 (TsText.rendered 5) < jsDateText 0 (TsText.rendered 10) := by
  decide

/-- C9 (amended).  The watermark read is
`SELECT * FROM <table> [WHERE user_id = $1] ORDER BY created_at DESC LIMIT 1`:
the checkpoint row is the row with the maximum `created_at` (the most
recently written row) among the user-scoped rows, not the row with the
maximum `timestamp` column. -/
theorem C9_watermark_row_is_latest_created (sink : List SinkRow)
    (uid : Option String) (dp : SinkRow) (h : getLastDatapoint sink uid = some dp) :
    dp ∈ userRows sink uid ∧ ∀ r ∈ userRows sink uid, r.createdAt ≤ dp.createdAt :=
  maxByCreatedAt_spec _ dp h

/-- Witness for C9's amended theorem at the concrete sink `c9sink`. -/
theorem C9_watermark_row_is_latest_created_witness :
    (⟨1, TsText.rendered 5, "p2", "u"⟩ : SinkRow) ∈ userRows c9sink (some "u") ∧
    ∀ r ∈ userRows c9sink (some "u"), r.createdAt ≤ 1 :=
  C9_watermark_row_is_latest_created c9sink (some "u") _ (by decide)

/-! ### Insert-loop lemmas (`storeSimplePrompts`) -/

/-- The sink rows produced by successful INSERTs of `insertLoop`, starting
at `created_at` sequence number `seq`. -/
def buildRows (u : String) : Nat → List InsRec → List SinkRow
  | _, [] => []
  | seq, r :: rs => ⟨seq, r.timestamp, r.prompt, u⟩ :: buildRows u (seq + 1) rs

theorem insertLoop_no_fail (u : String) (f : Nat → Bool) :
    ∀ (recs : List InsRec) (sink : List SinkRow) (seq cnt i : Nat),
    (∀ j, f j = false) →
    insertLoop u f recs sink seq cnt i
      = ⟨sink ++ buildRows u seq recs, seq + recs.length, cnt + recs.length, false⟩ := by
  intro recs
  induction recs with
  | nil => intro sink seq cnt i _; simp [insertLoop, buildRows]
  | cons r rs ih =>
    intro sink seq cnt i hf
    have h1 : insertLoop u f (r :: rs) sink seq cnt i
        = insertLoop u f rs (sink ++ [⟨seq, r.timestamp, r.prompt, u⟩])
            (seq + 1) (cnt + 1) (i + 1) := by
      simp [insertLoop, hf i]
    rw [h1, ih _ _ _ _ hf]
    simp only [buildRows, List.append_assoc, List.singleton_append, List.length_cons,
      StoreResult.mk.injEq]
    exact ⟨trivial, by omega, by omega, trivial⟩

theorem insertLoop_fail (u : String) (f : Nat → Bool) :
    ∀ (k : Nat) (recs : List InsRec) (sink : List SinkRow) (seq cnt i : Nat),
    (∀ j, j < k → f (i + j) = false) → k < recs.length → f (i + k) = true →
    insertLoop u f recs sink seq cnt i
      = ⟨sink ++ buildRows u seq (recs.take k), seq + k, cnt + k, true⟩ := by
  intro k
  induction k with
  | zero =>
    intro recs sink seq cnt i _ hk hf
    cases recs with
    | nil => simp at hk
    | cons r rs =>
      rw [Nat.add_zero] at hf
      simp [insertLoop, hf, buildRows]
  | succ k ih =>
    intro recs sink seq cnt i hb hk hf
    cases recs with
    | nil => simp at hk
    | cons r rs =>
      have h0 : f i = false := by
        have := hb 0 (Nat.succ_pos k); simpa using this
      have h1 : insertLoop u f (r :: rs) sink seq cnt i
          = insertLoop u f rs (sink ++ [⟨seq, r.timestamp, r.prompt, u⟩])
              (seq + 1) (cnt + 1) (i + 1) := by
        simp [insertLoop, h0]
      have h2 := ih rs (sink ++ [⟨seq, r.timestamp, r.prompt, u⟩]) (seq + 1) (cnt + 1) (i + 1)
        (fun j hj => by
          have := hb (j + 1) (Nat.succ_lt_succ hj)
          simpa [Nat.add_assoc, Nat.add_comm 1 j] using this)
        (Nat.lt_of_succ_lt_succ (by simpa using hk))
        (by simpa [Nat.add_assoc, Nat.add_comm 1 k] using hf)
      rw [h1, h2]
      simp only [List.take_succ_cons, buildRows, List.append_assoc, List.singleton_append,
        StoreResult.mk.injEq]
      exact ⟨trivial, by omega, by omega, trivial⟩

/-- Three well-formed query rows. -/
def c7rows : List QRow :=
  [⟨.rendered 1, some "p1"⟩, ⟨.rendered 2, some "p2"⟩, ⟨.rendered 3, some "p3"⟩]

/-- C7.  The claim fails on the code: when the second of three INSERTs
throws, the loop in `storeSimplePrompts` is aborted by the exception — the
first record is persisted (no transaction is rolled back) but the third
record is never inserted, so a failure on one record does block the rest of
the batch. -/
theorem C7_counterexample :
    (storeSimplePrompts [] 0 (some "u") (fun i => i == 1) c7rows).errored = true ∧
    (storeSimplePrompts [] 0 (some "u") (fun i => i == 1) c7rows).sink
      = [⟨0, .rendered 1, "p1", "u"⟩] := by
  decide

/-- C7 (amended).  `storeSimplePrompts` issues one independent INSERT per
extracted record with no wrapping transaction: when no INSERT fails, every
record is appended; when the first failing INSERT is the `k`-th, the rows
already inserted persist (nothing is rolled back) but the loop stops — the
records after the `k`-th are not attempted and the error propagates to the
caller. -/
theorem C7_insert_behavior (uid : Option String) (f : Nat → Bool) (rows : List QRow)
    (sink : List SinkRow) (seq : Nat) :
    ((∀ j, f j = false) →
      storeSimplePrompts sink seq uid f rows
        = ⟨sink ++ buildRows (uid.getD "local_user") seq (extractRecords rows),
           seq + (extractRecords rows).length, (extractRecords rows).length, false⟩) ∧
    (∀ k, (∀ j, j < k → f j = false) → k < (extractRecords rows).length → f k = true →
      storeSimplePrompts sink seq uid f rows
        = ⟨sink ++ buildRows (uid.getD "local_user") seq ((extractRecords rows).take k),
           seq + k, k, true⟩) := by
  constructor
  · intro hf
    have := insertLoop_no_fail (uid.getD "local_user") f (extractRecords rows) sink seq 0 0 hf
    simpa [storeSimplePrompts] using this
  · intro k hb hk hf
    have := insertLoop_fail (uid.getD "local_user") f k (extractRecords rows) sink seq 0 0
      (fun j hj => by simpa using hb j hj) hk (by simpa using hf)
    simpa [storeSimplePrompts] using this

/-- Witness for C7's amended theorem: the failure branch at `k = 1` on
`c7rows` and the no-failure branch on the same rows. -/
theorem C7_insert_behavior_witness :
    storeSimplePrompts [] 0 (some "u") (fun i => i == 1) c7rows
      = ⟨[⟨0, .rendered 1, "p1", "u"⟩], 1, 1, true⟩ ∧
    storeSimplePrompts [] 0 (some "u") noFail c7rows
      = ⟨[⟨0, .rendered 1, "p1", "u"⟩, ⟨1, .rendered 2, "p2", "u"⟩,
          ⟨2, .rendered 3, "p3", "u"⟩], 3, 3, false⟩ := by
  constructor
  · have := (C7_insert_behavior (some "u") (fun i => i == 1) c7rows [] 0).2 1
      (by decide) (by decide) (by decide)
    simpa using this
  · have := (C7_insert_behavior (some "u") noFail c7rows [] 0).1 (fun j => rfl)
    simpa using this

/-! ### Tick-level helper lemmas -/

theorem proceedPhase_frame (inp : TickInput) (st : SchedState) (tv : TsVal) (sq : Nat) :
    (proceedPhase inp st tv sq).1.isRunning = st.isRunning ∧
    (proceedPhase inp st tv sq).1.timerArmed = st.timerArmed ∧
    (proceedPhase inp st tv sq).1.retryCount = st.retryCount ∧
    ((proceedPhase inp st tv sq).2.caughtAtBoundary = true →
      (proceedPhase inp st tv sq).1.errorCount = st.errorCount + 1) ∧
    ((proceedPhase inp st tv sq).2.caughtAtBoundary = false →
      (proceedPhase inp st tv sq).1.errorCount = st.errorCount) := by
  simp only [proceedPhase]
  split_ifs <;> simp

/-- On a watermark-fetch failure with the incremented counter below the max,
the tick returns early with only the retry counter changed
(autoScheduler.ts:639-659). -/
theorem tick_abort_eq (inp : TickInput) (st : SchedState)
    (h1 : inp.pgInit = true) (h2 : inp.fetchFails = true)
    (h3 : st.retryCount + 1 < maxRetries) :
    executeScheduledTask inp st
      = ({ st with retryCount := st.retryCount + 1 }, ⟨true, none, 0, false, false⟩) := by
  unfold executeScheduledTask
  simp [h1, h2, h3]

/-- On a successful watermark fetch that finds a previous datapoint, the
tick resets the retry counter and proceeds with the resolved timestamp
(autoScheduler.ts:599-631). -/
theorem tick_success_eq (inp : TickInput) (st : SchedState) (dp : SinkRow)
    (h1 : inp.pgInit = true) (h2 : inp.fetchFails = false)
    (hdp : getLastDatapoint st.sink inp.userId = some dp) :
    executeScheduledTask inp st
      = proceedPhase inp { st with retryCount := 0 }
          (resolveTimestampFromDatapoint inp.src dp.timestamp) 1 := by
  unfold executeScheduledTask
  simp [h1, h2, hdp]

/-- On a successful watermark fetch with no previous datapoint, the tick
resets the retry counter and proceeds with the `nowIsoString` fallback
(autoScheduler.ts:632-637, 587-588). -/
theorem tick_nodata_eq (inp : TickInput) (st : SchedState)
    (h1 : inp.pgInit = true) (h2 : inp.fetchFails = false)
    (hdp : getLastDatapoint st.sink inp.userId = none) :
    executeScheduledTask inp st
      = proceedPhase inp { st with retryCount := 0 }
          (.text (.isoNoFrac (inp.now / 1000))) 0 := by
  unfold executeScheduledTask
  simp [h1, h2, hdp]

/-- C3.  With PostgreSQL initialized, a watermark-fetch failure increments
the consecutive-failure counter exactly once and, while the incremented
counter is below the fixed max of 3, the tick aborts entirely — the returned
state differs only in the counter, no source query is issued and the sink is
untouched; a successful watermark fetch resets the counter to 0. -/
theorem C3_retry_counter (inp : TickInput) (st : SchedState) :
    (inp.pgInit = true → inp.fetchFails = true → st.retryCount + 1 < maxRetries →
      executeScheduledTask inp st
        = ({ st with retryCount := st.retryCount + 1 }, ⟨true, none, 0, false, false⟩)) ∧
    (inp.pgInit = true → inp.fetchFails = false →
      (executeScheduledTask inp st).1.retryCount = 0) := by
  constructor
  · exact tick_abort_eq inp st
  · intro h1 h2
    rcases hdp : getLastDatapoint st.sink inp.userId with _ | dp
    · rw [tick_nodata_eq inp st h1 h2 hdp]
      have h := (proceedPhase_frame inp { st with retryCount := 0 }
        (.text (.isoNoFrac (inp.now / 1000))) 0).2.2.1
      simpa using h
    · rw [tick_success_eq inp st dp h1 h2 hdp]
      have h := (proceedPhase_frame inp { st with retryCount := 0 }
        (resolveTimestampFromDatapoint inp.src dp.timestamp) 1).2.2.1
      simpa using h

/-- Witness for C3: the failure branch at counter 0 and the success branch
on the concrete scenario. -/
theorem C3_retry_counter_witness :
    executeScheduledTask ⟨exSrc, 0, 0, true, true, false, noFail, some "u"⟩ st0
      = ({ st0 with retryCount := 1 }, ⟨true, none, 0, false, false⟩) ∧
    (executeScheduledTask exInput st0).1.retryCount = 0 := by
  constructor
  · exact (C3_retry_counter ⟨exSrc, 0, 0, true, true, false, noFail, some "u"⟩ st0).1
      rfl rfl (by decide)
  · exact (C3_retry_counter exInput st0).2 rfl rfl

/-- C10.  When the watermark fetch throws with PostgreSQL initialized and
the incremented consecutive-failure counter still below the max, the tick
returns early without reaching the boundary catch: `executionCount`,
`errorCount`, `lastExecution` and the sink are all unchanged — the aborted
tick is counted neither as an execution nor as an error. -/
theorem C10_abort_counts_nothing (inp : TickInput) (st : SchedState)
    (h1 : inp.pgInit = true) (h2 : inp.fetchFails = true)
    (h3 : st.retryCount + 1 < maxRetries) :
    (executeScheduledTask inp st).1.executionCount = st.executionCount ∧
    (executeScheduledTask inp st).1.errorCount = st.errorCount ∧
    (executeScheduledTask inp st).1.lastExecution = st.lastExecution ∧
    (executeScheduledTask inp st).1.sink = st.sink ∧
    (executeScheduledTask inp st).2.caughtAtBoundary = false ∧
    (executeScheduledTask inp st).2.aborted = true := by
  rw [tick_abort_eq inp st h1 h2 h3]
  exact ⟨rfl, rfl, rfl, rfl, rfl, rfl⟩

/-- Witness for C10 at the concrete scenario. -/
theorem C10_abort_counts_nothing_witness :
    (executeScheduledTask ⟨exSrc, 0, 0, true, true, false, noFail, some "u"⟩ st0).1.executionCount
      = st0.executionCount ∧
    (executeScheduledTask ⟨exSrc, 0, 0, true, true, false, noFail, some "u"⟩ st0).1.errorCount
      = st0.errorCount ∧
    (executeScheduledTask ⟨exSrc, 0, 0, true, true, false, noFail, some "u"⟩ st0).1.lastExecution
      = st0.lastExecution ∧
    (executeScheduledTask ⟨exSrc, 0, 0, true, true, false, noFail, some "u"⟩ st0).1.sink
      = st0.sink ∧
    (executeScheduledTask ⟨exSrc, 0, 0, true, true, false, noFail, some "u"⟩ st0).2.caughtAtBoundary
      = false ∧
    (executeScheduledTask ⟨exSrc, 0, 0, true, true, false, noFail, some "u"⟩ st0).2.aborted
      = true :=
  C10_abort_counts_nothing ⟨exSrc, 0, 0, true, true, false, noFail, some "u"⟩ st0
    rfl rfl (by decide)

/-- C8.  The claim fails on the code: not every error raised inside a tick
is caught at the tick boundary and counted in `errorCount`.  With every
INSERT failing, `storeSimplePrompts` throws, the inner catch
(autoScheduler.ts:732-734) swallows the error, and the tick completes with
`errorCount` still 0 and `executionCount` incremented to 1. -/
theorem C8_counterexample :
    (executeScheduledTask { exInput with insertFails := fun _ => true } st0).2.storeErrored
      = true ∧
    (executeScheduledTask { exInput with insertFails := fun _ => true } st0).1.errorCount = 0 ∧
    (executeScheduledTask { exInput with insertFails := fun _ => true } st0).1.executionCount
      = 1 := by
  decide

/-- C8 (amended).  No error ever escalates past the scheduler: a tick never
changes `isRunning` or the armed timer.  An error that reaches the tick
boundary is caught there and increments `errorCount` by exactly one;
otherwise `errorCount` is unchanged (watermark-fetch failures and sink-store
failures are handled by inner catches and are not counted). -/
theorem C8_error_isolation (inp : TickInput) (st : SchedState) :
    (executeScheduledTask inp st).1.isRunning = st.isRunning ∧
    (executeScheduledTask inp st).1.timerArmed = st.timerArmed ∧
    ((executeScheduledTask inp st).2.caughtAtBoundary = true →
      (executeScheduledTask inp st).1.errorCount = st.errorCount + 1) ∧
    ((executeScheduledTask inp st).2.caughtAtBoundary = false →
      (executeScheduledTask inp st).1.errorCount = st.errorCount) := by
  cases h1 : inp.pgInit with
  | false =>
    unfold executeScheduledTask
    simp only [h1, Bool.false_eq_true, if_false]
    have h := proceedPhase_frame inp st (.text (.isoNoFrac (inp.now / 1000))) 0
    exact ⟨h.1, h.2.1, h.2.2.2.1, h.2.2.2.2⟩
  | true =>
    cases h2 : inp.fetchFails with
    | true =>
      by_cases h3 : st.retryCount + 1 < maxRetries
      · rw [tick_abort_eq inp st h1 h2 h3]
        simp
      · unfold executeScheduledTask
        simp only [h1, h2, if_true]
        have hc2 : (if st.retryCount + 1 < maxRetries then st.retryCount + 1 else 0) = 0 := by
          rw [if_neg h3]
        rw [hc2]
        simp only [maxRetries, Nat.zero_lt_succ, if_true]
        simp
    | false =>
      rcases hdp : getLastDatapoint st.sink inp.userId with _ | dp
      · rw [tick_nodata_eq inp st h1 h2 hdp]
        have h := proceedPhase_frame inp { st with retryCount := 0 }
          (.text (.isoNoFrac (inp.now / 1000))) 0
        exact ⟨h.1, h.2.1, h.2.2.2.1, h.2.2.2.2⟩
      · rw [tick_success_eq inp st dp h1 h2 hdp]
        have h := proceedPhase_frame inp { st with retryCount := 0 }
          (resolveTimestampFromDatapoint inp.src dp.timestamp) 1
        exact ⟨h.1, h.2.1, h.2.2.2.1, h.2.2.2.2⟩

/-- Witness for C8's amended theorem: a tick whose main query throws is
caught at the boundary and counted, leaving the scheduler running. -/
theorem C8_error_isolation_witness :
    (executeScheduledTask { exInput with queryFails := true } st0).1.isRunning = true ∧
    (executeScheduledTask { exInput with queryFails := true } st0).1.errorCount = 1 := by
  constructor
  · have h := (C8_error_isolation { exInput with queryFails := true } st0).1
    simpa [st0] using h
  · have h := (C8_error_isolation { exInput with queryFails := true } st0).2.2.1 (by decide)
    simpa [st0] using h

/-! ### Watermark-resolution lemmas -/

theorem mem_matchingSendTimes (src : Source) (cleaned : TsText) (t : Nat) :
    t ∈ matchingSendTimes src cleaned ↔ IsDisplayMatch src cleaned t := by
  unfold matchingSendTimes IsDisplayMatch
  rw [List.mem_filterMap]
  constructor
  · rintro ⟨b, hb, hfb⟩
    rcases hst : b.sendTime with _ | t'
    · rw [hst, Option.none_bind] at hfb
      exact absurd hfb (by simp)
    · rw [hst, Option.some_bind] at hfb
      by_cases hc : b.type = 2 ∧ renderMs t' = cleaned
      · rw [if_pos hc] at hfb
        injection hfb with h
        subst h
        exact ⟨b, hb, hc.1, hst, hc.2⟩
      · rw [if_neg hc] at hfb
        exact absurd hfb (by simp)
  · rintro ⟨b, hb, ht2, hst, hr⟩
    refine ⟨b, hb, ?_⟩
    rw [hst, Option.some_bind, if_pos ⟨ht2, hr⟩]

theorem listMaxNat_spec :
    ∀ (l : List Nat) (m : Nat), listMaxNat l = some m → m ∈ l ∧ ∀ t ∈ l, t ≤ m := by
  intro l
  induction l with
  | nil => intro m h; simp [listMaxNat] at h
  | cons t ts ih =>
    intro m h
    cases hrec : listMaxNat ts with
    | none =>
      have hnil : ts = [] := by
        cases ts with
        | nil => rfl
        | cons t' ts' =>
          exfalso
          simp only [listMaxNat] at hrec
          rcases hmm : listMaxNat ts' with _ | b <;> simp only [hmm] at hrec
          <;> exact Option.noConfusion hrec
      subst hnil
      simp only [listMaxNat] at h
      cases h
      exact ⟨List.mem_cons_self _ _, by intro x hx; simp at hx; subst hx; exact Nat.le_refl _⟩
    | some b =>
      simp only [listMaxNat, hrec] at h
      obtain ⟨hbmem, hble⟩ := ih b hrec
      cases h
      refine ⟨?_, ?_⟩
      · rcases Nat.le_total t b with hle | hle
        · rw [Nat.max_eq_right hle]; exact List.mem_cons_of_mem _ hbmem
        · rw [Nat.max_eq_left hle]; exact List.mem_cons_self _ _
      · intro x hx
        rcases List.mem_cons.mp hx with hx | hx
        · subst hx; exact Nat.le_max_left _ _
        · exact Nat.le_trans (hble x hx) (Nat.le_max_right _ _)

theorem listMaxNat_of_ne_nil : ∀ (l : List Nat), l ≠ [] → ∃ m, listMaxNat l = some m := by
  intro l hl
  cases l with
  | nil => exact absurd rfl hl
  | cons t ts =>
    simp only [listMaxNat]
    rcases listMaxNat ts with _ | b
    · exact ⟨t, rfl⟩
    · exact ⟨max t b, rfl⟩

theorem findActualMs_some_iff (src : Source) (cleaned : TsText) :
    (∃ t, IsDisplayMatch src cleaned t) ↔ ∃ m, findActualMs src cleaned = some m := by
  constructor
  · rintro ⟨t, ht⟩
    have hmem : t ∈ matchingSendTimes src cleaned := (mem_matchingSendTimes _ _ _).mpr ht
    exact listMaxNat_of_ne_nil _ (List.ne_nil_of_mem hmem)
  · rintro ⟨m, hm⟩
    have := (listMaxNat_spec _ m hm).1
    exact ⟨m, (mem_matchingSendTimes _ _ _).mp this⟩

/-- C2.  When the cleaned sink timestamp has an exact rendered-display-time
match among response-type source records, the resolver returns that record's
raw epoch-millisecond send-time field as `timestampToUse`, and the query's
`target_ms` is exactly that raw value (not a value re-parsed from text);
only when no such match exists does the resolver fall back to the stored
text (space restored to `T`), which the query then parses directly into
milliseconds via `new Date(...).getTime()`. -/
theorem C2_exact_watermark_resolution (src : Source) (ts : TsText) :
    ((∃ t, IsDisplayMatch src (replaceTWithSpace ts) t) →
      ∃ m, IsDisplayMatch src (replaceTWithSpace ts) m ∧
        resolveTimestampFromDatapoint src ts = .mills m ∧
        ∀ tz, targetMsOf tz (resolveTimestampFromDatapoint src ts) = (m : Int)) ∧
    ((¬ ∃ t, IsDisplayMatch src (replaceTWithSpace ts) t) →
      resolveTimestampFromDatapoint src ts = .text (replaceSpaceWithT ts) ∧
      ∀ tz, targetMsOf tz (resolveTimestampFromDatapoint src ts)
        = jsDateText tz (replaceSpaceWithT ts)) := by
  constructor
  · intro hex
    obtain ⟨m, hm⟩ := (findActualMs_some_iff src (replaceTWithSpace ts)).mp hex
    have hmm : IsDisplayMatch src (replaceTWithSpace ts) m :=
      (mem_matchingSendTimes _ _ _).mp (listMaxNat_spec _ m hm).1
    have hres : resolveTimestampFromDatapoint src ts = .mills m := by
      unfold resolveTimestampFromDatapoint
      rw [hm]
    exact ⟨m, hmm, hres, fun tz => by rw [hres]; rfl⟩
  · intro hnone
    have hmt : findActualMs src (replaceTWithSpace ts) = none := by
      rcases hfa : findActualMs src (replaceTWithSpace ts) with _ | m
      · rfl
      · exact absurd ((findActualMs_some_iff src (replaceTWithSpace ts)).mpr ⟨m, hfa⟩) hnone
    have hres : resolveTimestampFromDatapoint src ts = .text (replaceSpaceWithT ts) := by
      unfold resolveTimestampFromDatapoint
      rw [hmt]
    exact ⟨hres, fun tz => by rw [hres]; rfl⟩

/-- Witness for C2 on the concrete source: the stored sink text
`2025-01-01 ..:..:02` (rendered second 2) has the exact match `a1` with raw
send time 2000 ms, and that raw value becomes `target_ms`. -/
theorem C2_exact_watermark_resolution_witness :
    ∃ m, IsDisplayMatch exSrc (replaceTWithSpace (.rendered 2)) m ∧
      resolveTimestampFromDatapoint exSrc (.rendered 2) = .mills m ∧
      ∀ tz, targetMsOf tz (resolveTimestampFromDatapoint exSrc (.rendered 2)) = (m : Int) :=
  (C2_exact_watermark_resolution exSrc (.rendered 2)).1 ⟨2000, by decide⟩

/-! ### Extraction on a four-message session -/

/-- A source store with one session `c` whose ordered messages are
`u1` (user), `a1` (assistant), `u2` (user), `a2` (assistant), with
arbitrary send times and texts. -/
def c6src (tu1 ta1 tu2 ta2 : Nat) (q1 r1 q2 r2 : String) : Source :=
  ⟨[⟨"c", "u1", 1, some tu1, some q1⟩,
    ⟨"c", "a1", 2, some ta1, some r1⟩,
    ⟨"c", "u2", 1, some tu2, some q2⟩,
    ⟨"c", "a2", 2, some ta2, some r2⟩],
   [⟨"c", some [⟨"u1", 1⟩, ⟨"a1", 2⟩, ⟨"u2", 1⟩, ⟨"a2", 2⟩]⟩]⟩

/-- C6.  On a session `[U1, A1, U2, A2]` with lower bound 0 (every record
qualifies), extraction yields exactly the two response rows, each paired
with the text of the message at the preceding sequence position of the same
session, ordered by raw send time descending:
`[(render A2.time, U2.text), (render A1.time, U1.text)]`. -/
theorem C6_extraction_pairs (tz : Int) (tu1 ta1 tu2 ta2 : Nat) (q1 r1 q2 r2 : String)
    (h1 : 0 < ta1) (h2 : ta1 < ta2) :
    getOptimizedQuery (c6src tu1 ta1 tu2 ta2 q1 r1 q2 r2) tz (.mills 0)
      = [⟨renderMs ta2, some q2⟩, ⟨renderMs ta1, some q1⟩] := by
  have h1i : (0 : Int) < (ta1 : Int) := by exact_mod_cast h1
  have h2i : (0 : Int) < (ta2 : Int) := by exact_mod_cast Nat.lt_of_lt_of_le h1 (Nat.le_of_lt h2)
  have h3 : ¬ (ta2 < ta1) := Nat.lt_asymm h2
  have h4 : 0 < ta2 := Nat.lt_of_lt_of_le h1 (Nat.le_of_lt h2)
  simp [getOptimizedQuery, finalRows, timestampFilteredBubbles, bubbleSequence, targetInfo,
    promptLookup, orderBySendDesc, insertByDesc, c6src, renderMs, targetMsOf, targetStrOf,
    isoClean, List.enum, List.enumFrom, h1i, h2i, h3, h1, h2, h4, List.filterMap, List.filter]

/-- Witness for C6 at send times 500 / 2000 / 3000 / 4000. -/
theorem C6_extraction_pairs_witness :
    getOptimizedQuery (c6src 500 2000 3000 4000 "q1" "r1" "q2" "r2") 0 (.mills 0)
      = [⟨renderMs 4000, some "q2"⟩, ⟨renderMs 2000, some "q1"⟩] :=
  C6_extraction_pairs 0 500 2000 3000 4000 "q1" "r1" "q2" "r2" (by decide) (by decide)

/-! ### Membership lemmas for the extraction pipeline -/

theorem mem_insertByDesc (x r : ERow) :
    ∀ (l : List ERow), x ∈ insertByDesc r l ↔ x = r ∨ x ∈ l := by
  intro l
  induction l with
  | nil => simp [insertByDesc]
  | cons y ys ih =>
    simp only [insertByDesc]
    by_cases h : y.sendMs < r.sendMs
    · rw [if_pos h]
      simp [List.mem_cons]
    · rw [if_neg h]
      simp [List.mem_cons, ih]
      tauto

theorem mem_orderBySendDesc (x : ERow) :
    ∀ (l : List ERow), x ∈ orderBySendDesc l ↔ x ∈ l := by
  intro l
  induction l with
  | nil => simp [orderBySendDesc]
  | cons y ys ih => simp [orderBySendDesc, mem_insertByDesc, ih]

theorem mem_timestampFilteredBubbles (src : Source) (tz : Int) (tv : TsVal) (tfb : TfbRow)
    (h : tfb ∈ timestampFilteredBubbles src tz tv) :
    ∃ b ∈ src.bubbles, ∃ t, b.sendTime = some t ∧ b.type = 2 ∧
      targetMsOf tz tv < (t : Int) ∧ renderMs t ≠ targetStrOf tv ∧
      tfb.readableTime = renderMs t := by
  simp only [timestampFilteredBubbles, List.mem_filterMap] at h
  obtain ⟨b, hb, hfb⟩ := h
  rcases hst : b.sendTime with _ | t
  · rw [hst, Option.none_bind] at hfb
    exact absurd hfb (by simp)
  · rw [hst, Option.some_bind] at hfb
    by_cases hc : b.type = 2 ∧ targetMsOf tz tv < (t : Int) ∧ renderMs t ≠ targetStrOf tv
    · rw [if_pos hc] at hfb
      injection hfb with hfb
      subst hfb
      exact ⟨b, hb, t, hst, hc.1, hc.2.1, hc.2.2, rfl⟩
    · rw [if_neg hc] at hfb
      exact absurd hfb (by simp)

theorem mem_finalRows_timestamp (src : Source) (tz : Int) (tv : TsVal) (er : ERow)
    (h : er ∈ finalRows src tz tv) :
    ∃ tfb ∈ timestampFilteredBubbles src tz tv, er.timestamp = tfb.readableTime := by
  simp only [finalRows, List.mem_flatMap] at h
  obtain ⟨tfb, htfb, h⟩ := h
  refine ⟨tfb, htfb, ?_⟩
  obtain ⟨tbs, _, h⟩ := h
  by_cases hc1 : tbs.bubbleId = tfb.bubbleId
  · rw [if_pos hc1] at h
    rw [List.mem_flatMap] at h
    obtain ⟨ti, _, h⟩ := h
    by_cases hc2 : tbs.composerId = ti.composerId ∧ tbs.seqIdx = ti.targetIdx
    · rw [if_pos hc2] at h
      split at h
      · simp at h
        rw [h]
      · rw [List.mem_map] at h
        obtain ⟨p, _, hp⟩ := h
        rw [← hp]
    · rw [if_neg hc2] at h
      exact absurd h (by simp)
  · rw [if_neg hc1] at h
    exact absurd h (by simp)

theorem mem_getOptimizedQuery_timestamp (src : Source) (tz : Int) (tv : TsVal) (q : QRow)
    (h : q ∈ getOptimizedQuery src tz tv) :
    ∃ t, q.timestamp = renderMs t ∧ targetMsOf tz tv < (t : Int) ∧
      renderMs t ≠ targetStrOf tv ∧
      ∃ b ∈ src.bubbles, b.type = 2 ∧ b.sendTime = some t := by
  unfold getOptimizedQuery at h
  rw [List.mem_map] at h
  obtain ⟨er, her, hq⟩ := h
  rw [mem_orderBySendDesc] at her
  obtain ⟨tfb, htfb, hts⟩ := mem_finalRows_timestamp src tz tv er her
  obtain ⟨b, hb, t, hst, ht2, hgt, hne, hrt⟩ := mem_timestampFilteredBubbles src tz tv tfb htfb
  refine ⟨t, ?_, hgt, hne, b, hb, ht2, hst⟩
  rw [← hq]
  show er.timestamp = renderMs t
  rw [hts, hrt]

theorem mem_extractRecords_timestamp (rows : List QRow) (rec : InsRec)
    (h : rec ∈ extractRecords rows) : ∃ q ∈ rows, rec.timestamp = q.timestamp := by
  unfold extractRecords at h
  rw [List.mem_filterMap] at h
  obtain ⟨q, hq, hfq⟩ := h
  rcases hp : q.prompt with _ | p
  · rw [hp, Option.none_bind] at hfq
    exact absurd hfq (by simp)
  · rw [hp, Option.some_bind] at hfq
    by_cases he : p = ""
    · rw [if_pos he] at hfq
      exact absurd hfq (by simp)
    · rw [if_neg he] at hfq
      injection hfq with hfq
      subst hfq
      exact ⟨q, hq, rfl⟩

theorem mem_dedupFilter (tz : Int) (tv : TsVal) (results : List QRow) (r : QRow) :
    r ∈ dedupFilter tz tv results ↔
      r ∈ results ∧ jsDateText tz r.timestamp ≠ jsDateVal tz tv := by
  unfold dedupFilter
  rw [List.mem_filter]
  simp

theorem insertLoop_sink_decomp (u : String) (f : Nat → Bool) :
    ∀ (recs : List InsRec) (sink : List SinkRow) (seq cnt i : Nat),
    ∃ l, (insertLoop u f recs sink seq cnt i).sink = sink ++ l ∧
      ∀ row ∈ l, ∃ rec ∈ recs, row.timestamp = rec.timestamp := by
  intro recs
  induction recs with
  | nil => intro sink seq cnt i; exact ⟨[], by simp [insertLoop], by simp⟩
  | cons r rs ih =>
    intro sink seq cnt i
    by_cases hf : f i
    · refine ⟨[], ?_, by simp⟩
      simp [insertLoop, hf]
    · obtain ⟨l, hl, hrows⟩ :=
        ih (sink ++ [⟨seq, r.timestamp, r.prompt, u⟩]) (seq + 1) (cnt + 1) (i + 1)
      refine ⟨⟨seq, r.timestamp, r.prompt, u⟩ :: l, ?_, ?_⟩
      · have hstep : insertLoop u f (r :: rs) sink seq cnt i
            = insertLoop u f rs (sink ++ [⟨seq, r.timestamp, r.prompt, u⟩])
                (seq + 1) (cnt + 1) (i + 1) := by
          simp [insertLoop, hf]
        rw [hstep, hl, List.append_assoc]
        rfl
      · intro row hrow
        rcases List.mem_cons.mp hrow with hrow | hrow
        · subst hrow
          exact ⟨r, List.mem_cons_self _ _, rfl⟩
        · obtain ⟨rec, hrec, hts⟩ := hrows row hrow
          exact ⟨rec, List.mem_cons_of_mem _ hrec, hts⟩

theorem proceedPhase_sink_decomp (inp : TickInput) (st : SchedState) (tv : TsVal) (sq : Nat) :
    ∃ written, (proceedPhase inp st tv sq).1.sink = st.sink ++ written ∧
      ∀ row ∈ written, ∃ q ∈ getOptimizedQuery inp.src inp.tz tv, row.timestamp = q.timestamp := by
  simp only [proceedPhase]
  split_ifs with hq he hf hp
  · exact ⟨[], by simp, by simp⟩
  · exact ⟨[], by simp, by simp⟩
  · exact ⟨[], by simp, by simp⟩
  · obtain ⟨l, hl, hrows⟩ := insertLoop_sink_decomp (inp.userId.getD "local_user")
      inp.insertFails
      (extractRecords (dedupFilter inp.tz tv (getOptimizedQuery inp.src inp.tz tv)))
      st.sink st.seq 0 0
    refine ⟨l, ?_, ?_⟩
    · simpa [storeSimplePrompts] using hl
    · intro row hrow
      obtain ⟨rec, hrec, hts⟩ := hrows row hrow
      obtain ⟨q2, hq2, hts2⟩ := mem_extractRecords_timestamp _ rec hrec
      have hq3 := ((mem_dedupFilter _ _ _ q2).mp hq2).1
      exact ⟨q2, hq3, hts.trans hts2⟩
  · exact ⟨[], by simp, by simp⟩

/-- C5.  The claim's consequence fails on the code when "the previous
checkpoint" is read, as the spec defines it, as the maximum-`timestamp`
sink row: after tick 1 the maximum-timestamp row for user `u` is the
rendered-4-second row, and tick 2 writes a second row with exactly that
`(timestamp, user_id)` — because the watermark was resolved from the
most-recently-written (minimum-timestamp) row instead. -/
theorem C5_counterexample :
    (∀ r ∈ run1.1.sink, jsDateText 0 r.timestamp ≤ jsDateText 0 (TsText.rendered 4)) ∧
    (⟨0, TsText.rendered 4, "q2", "u"⟩ : SinkRow) ∈ run1.1.sink ∧
    (run2.1.sink.filter fun r =>
      r.timestamp == TsText.rendered 4 && r.userId == "u").length = 2 := by
  decide

/-- C5 (amended).  The dedup filter removes exactly the rows whose
timestamp, normalized back to epoch milliseconds by `new Date(...)`, equals
the normalization of `timestampToUse` (it is a pure function of its
arguments); and no sink row appended during a tick carries the same
`timestamp` text as the watermark row read at the start of that tick (the
sink row with maximum `created_at`) — boundary idempotence holds with
respect to the row the watermark read actually returns, not the
maximum-`timestamp` row. -/
theorem C5_dedup_and_boundary :
    (∀ (tz : Int) (tv : TsVal) (results : List QRow) (r : QRow),
      r ∈ dedupFilter tz tv results ↔
        r ∈ results ∧ jsDateText tz r.timestamp ≠ jsDateVal tz tv) ∧
    (∀ (inp : TickInput) (st : SchedState) (dp : SinkRow),
      inp.pgInit = true → inp.fetchFails = false →
      getLastDatapoint st.sink inp.userId = some dp →
      ∃ written, (executeScheduledTask inp st).1.sink = st.sink ++ written ∧
        ∀ row ∈ written, row.timestamp ≠ dp.timestamp) := by
  refine ⟨mem_dedupFilter, ?_⟩
  intro inp st dp h1 h2 hdp
  rw [tick_success_eq inp st dp h1 h2 hdp]
  obtain ⟨written, hw, hrows⟩ := proceedPhase_sink_decomp inp { st with retryCount := 0 }
    (resolveTimestampFromDatapoint inp.src dp.timestamp) 1
  refine ⟨written, by simpa using hw, ?_⟩
  intro row hrow
  obtain ⟨q, hq, hts⟩ := hrows row hrow
  obtain ⟨t, hqt, hgt, hne, b, hb, hbt, hbst⟩ :=
    mem_getOptimizedQuery_timestamp inp.src inp.tz _ q hq
  rw [hts, hqt]
  cases hdt : dp.timestamp with
  | rendered s =>
    intro hcontra
    have hmatch : IsDisplayMatch inp.src (replaceTWithSpace (.rendered s)) t :=
      ⟨b, hb, hbt, hbst, hcontra⟩
    rcases hfa : findActualMs inp.src (replaceTWithSpace (.rendered s)) with _ | m
    · obtain ⟨m', hm'⟩ := (findActualMs_some_iff _ _).mp ⟨t, hmatch⟩
      rw [hfa] at hm'
      exact Option.noConfusion hm'
    · have hres : resolveTimestampFromDatapoint inp.src dp.timestamp = .mills m := by
        rw [hdt]
        unfold resolveTimestampFromDatapoint
        rw [hfa]
      have hgt' : (m : Int) < (t : Int) := by
        rw [hres] at hgt
        exact hgt
      have hle : t ≤ m :=
        (listMaxNat_spec _ m hfa).2 t ((mem_matchingSendTimes _ _ _).mpr hmatch)
      have hle' : (t : Int) ≤ (m : Int) := Int.ofNat_le.mpr hle
      omega
  | renderedFrac s f => simp [renderMs]
  | isoNoFrac s => simp [renderMs]
  | isoFrac s f => simp [renderMs]

/-- Witness for C5's amended theorem: tick 2 of the concrete scenario,
where the watermark row read is the rendered-2-second row. -/
theorem C5_dedup_and_boundary_witness :
    ∃ written, (executeScheduledTask exInput2 run1.1).1.sink = run1.1.sink ++ written ∧
      ∀ row ∈ written, row.timestamp ≠ TsText.rendered 2 :=
  C5_dedup_and_boundary.2 exInput2 run1.1 ⟨1, .rendered 2, "q1", "u"⟩ rfl rfl (by decide)

end CursorPromptSync
